import Mathlib

/-!
Verification of the decree-analysis pipeline (`analisador_ver2/ver3/ver4.py`,
`AGENTE-LLM/analisador.py`): a shallow embedding of its segmentation,
admissibility filter, extraction-adapter control flow, reconciliation into the
three report tables (quadros), and the Brazilian monetary formatter, together
with theorems settling the specification's claims about them.

Conventions of the embedding:
* Python strings are `String` / `List Char`; `dict.get` of a possibly missing
  or null field is `Option`.
* Python values reaching `formatar_valor_brl` (strings, numbers, `None`) are
  the inductive `PyVal`; a number is represented by its `str()` image (Python
  prints floats in shortest round-trip decimal notation, e.g.
  `str(1884373.3) == "1884373.3"`).
* `decimal.Decimal` on the cleaned string (digits and dots only, after the
  `[^\d,]` strip and `,`->`.` replace) is `parseDec`, returning the exact
  value as numerator/scale; the `InvalidOperation` it raises on a non-numeric
  string is the `none` case.  Formatting with `{:,.2f}` rounds half-to-even
  to two fractional digits (`round2`) and groups thousands (`renderBRL`
  already performs the final swap to dots-for-thousands, comma-for-decimals).
* The Unicode whitespace and case-folding used by `str.strip`, `\s` and
  `re.IGNORECASE` are modelled on the alphabet actually reachable in this
  repository (ASCII plus the accented letters of the patterns).
-/

/-- A Python value reaching `formatar_valor_brl`: a string, a number
(represented by its `str()` image), or `None`. -/
inductive PyVal where
  | vstr (s : String)
  | vnum (s : String)
  | vnone
deriving DecidableEq

/-- `str(v)` for the values of `PyVal` (`str(None) == "None"`). -/
def pyStrOf : PyVal → String
  | .vstr s => s
  | .vnum s => s
  | .vnone => "None"

/-- `re.sub(r'[^\d,]', '', s).replace(',', '.')`: keep only digits and commas,
then turn each comma into a dot. -/
def cleanBRL (s : String) : List Char :=
  (s.toList.filter (fun c => c.isDigit || c = ',')).map
    (fun c => if c = ',' then '.' else c)

/-- Numeric value of a digit string (most-significant digit first). -/
def digitsVal (ds : List Char) : Nat :=
  ds.foldl (fun n c => n * 10 + (c.toNat - '0'.toNat)) 0

/-- `decimal.Decimal` applied to a string of digits and dots: accepted iff
there is at most one dot and at least one digit; the result is the exact
value as (numerator, scale), i.e. `n / 10 ^ s`.  `none` is the
`InvalidOperation` exception. -/
def parseDec (cs : List Char) : Option (Nat × Nat) :=
  match cs.splitOn '.' with
  | [ip] => if !ip.isEmpty && ip.all Char.isDigit then some (digitsVal ip, 0) else none
  | [ip, fp] =>
      if !(ip ++ fp).isEmpty && (ip ++ fp).all Char.isDigit then
        some (digitsVal (ip ++ fp), fp.length)
      else none
  | _ => none

/-- Round `n / 10 ^ s` to two fractional digits (half to even, as `Decimal`
formatting does), returning the value in hundredths. -/
def round2 (n s : Nat) : Nat :=
  if s ≤ 2 then n * 10 ^ (2 - s)
  else
    let d := 10 ^ (s - 2)
    let q := n / d
    let r := n % d
    if 2 * r < d then q
    else if d < 2 * r then q + 1
    else if q % 2 = 0 then q else q + 1

/-- Insert a thousands separator after every third digit of a reversed digit
list (least-significant digit first). -/
def group3Rev : List Char → List Char
  | a :: b :: c :: d :: rest => a :: b :: c :: '.' :: group3Rev (d :: rest)
  | l => l

/-- Render a value in hundredths with the Brazilian convention: thousands
separated by `.`, two fractional digits after `,`.  This is
`f'LBRACEd:,.2fRBRACE'` followed by the swap of `,` and `.`. -/
def renderBRL (cents : Nat) : String :=
  let ip := cents / 100
  let fr := cents % 100
  let grouped := (group3Rev (Nat.toDigits 10 ip).reverse).reverse
  String.mk (grouped ++ [','] ++ [Nat.digitChar (fr / 10), Nat.digitChar (fr % 10)])

/-- `formatar_valor_brl`: clean, parse as `Decimal`, round to two fractional
digits and render; on `InvalidOperation` (or `TypeError`) return the input
unchanged. -/
def formatar (v : PyVal) : PyVal :=
  match parseDec (cleanBRL (pyStrOf v)) with
  | some (n, s) => .vstr (renderBRL (round2 n s))
  | none => v

/-- The exceptions the body of `formatar_valor_brl` can raise. -/
inductive PyError where
  | invalidOperation
  | typeError
deriving DecidableEq

/-- The `try` body of `formatar_valor_brl` with its exception made explicit:
`str()`, the regex cleaning and the f-string formatting are total, so the only
error source is the `Decimal` constructor, raising `InvalidOperation`. -/
def formatarBody (v : PyVal) : Sum PyError String :=
  match parseDec (cleanBRL (pyStrOf v)) with
  | none => .inl .invalidOperation
  | some (n, s) => .inr (renderBRL (round2 n s))

/-- The exception classes named by the `except` clause of
`formatar_valor_brl`. -/
def caughtByFormatar (e : PyError) : Bool :=
  match e with
  | .invalidOperation => true
  | .typeError => true

/-- `formatar_valor_brl` with uncaught exceptions made observable: `none`
would mean an exception escaping to the caller. -/
def formatarChecked (v : PyVal) : Option PyVal :=
  match formatarBody v with
  | .inr s => some (.vstr s)
  | .inl e => if caughtByFormatar e then some v else none

/-- The whitespace characters of Python's `str.strip` / `\s` restricted to
the code points reachable in this repository's corpora (ASCII whitespace plus
NEL and NBSP). -/
def isPySpace (c : Char) : Bool :=
  c = ' ' || c = '\t' || c = '\n' || c = '\r' || c = '\x0b' || c = '\x0c' ||
  c = '\x85' || c = '\xa0'

/-- Python `str.strip()`: remove leading and trailing whitespace. -/
def pyStrip (l : List Char) : List Char :=
  (((l.dropWhile isPySpace).reverse).dropWhile isPySpace).reverse

/-- Lower-casing as performed by `re.IGNORECASE`, restricted to ASCII letters
and the accented letters occurring in this repository's patterns. -/
def lowerPy (c : Char) : Char :=
  if 'A' ≤ c && c ≤ 'Z' then Char.ofNat (c.toNat + 32)
  else if c = 'Ç' then 'ç'
  else if c = 'Á' then 'á'
  else if c = 'É' then 'é'
  else if c = 'Í' then 'í'
  else if c = 'Ó' then 'ó'
  else if c = 'Ú' then 'ú'
  else c

/-- Case-insensitive literal match: consume `pat` (given lower-case) from the
head of the text, returning the remaining text. -/
def matchCI : List Char → List Char → Option (List Char)
  | [], cs => some cs
  | _ :: _, [] => none
  | p :: ps, c :: cs => if lowerPy c = p then matchCI ps cs else none

/-- The tail `\s+N[º°]` of the decree-header lookahead (`\.?` at the end is
vacuous inside a lookahead): at least one whitespace, then `N`
case-insensitively, then the ordinal or degree sign. -/
def markerTail (cs : List Char) : Bool :=
  match cs with
  | [] => false
  | c :: _ =>
    if isPySpace c then
      match cs.dropWhile isPySpace with
      | n :: q :: _ => lowerPy n = 'n' && (q = 'º' || q = '°')
      | _ => false
    else false

/-- The lookahead of the split pattern
`\n(?=DECRETO(?: Orçamentário)?\s+N[º°]\.?)` with `re.IGNORECASE`: does the
text at this position start with a decree header? -/
def splitMarker (cs : List Char) : Bool :=
  match matchCI "decreto".toList cs with
  | none => false
  | some rest =>
    markerTail rest ||
      (match matchCI " orçamentário".toList rest with
       | none => false
       | some r2 => markerTail r2)

/-- Worker of `re.split` for the pattern above: scan the text, and at each
newline followed by a decree header cut a fragment (the newline is consumed
by the split, the header stays with the next fragment).  `acc` holds the
current fragment reversed. -/
def pySplitAux : List Char → List Char → List (List Char)
  | [], acc => [acc.reverse]
  | c :: rest, acc =>
    if c = '\n' && splitMarker rest then acc.reverse :: pySplitAux rest []
    else pySplitAux rest (c :: acc)

/-- `re.split(padrao_split, texto, flags=re.IGNORECASE)`. -/
def pySplit (t : List Char) : List (List Char) :=
  pySplitAux t []

/-- Concatenation of fragments re-inserting the consumed `\n` boundary. -/
def joinNL : List (List Char) → List Char
  | [] => []
  | [b] => b
  | b :: c :: rest => b ++ '\n' :: joinNL (c :: rest)

/-- The segmenter of `analisador_ver3.py`: split, then
`if not blocos_decretos[0].strip(): blocos_decretos.pop(0)` — drop the first
fragment when stripping it leaves nothing.  (`re.split` always returns at
least one fragment, so the empty match arm is unreachable.) -/
def segmentVer3 (t : List Char) : List (List Char) :=
  match pySplit t with
  | [] => []
  | b :: rest => if (pyStrip b).isEmpty then rest else b :: rest

/-- `re.search(r'Art\.\s*1[º°o]', bloco, re.IGNORECASE)` at a fixed position:
`Art.` case-insensitively, any whitespace, the digit `d`, then the ordinal
sign, degree sign or letter o (which `re.IGNORECASE` extends to `O`). -/
def artAt (d : Char) (cs : List Char) : Bool :=
  match matchCI ['a', 'r', 't', '.'] cs with
  | none => false
  | some rest =>
    match rest.dropWhile isPySpace with
    | e :: f :: _ => e = d && (f = 'º' || f = '°' || lowerPy f = 'o')
    | _ => false

/-- `re.search` of the article marker: does the pattern match at some
position of the block? -/
def hasArt (d : Char) : List Char → Bool
  | [] => false
  | c :: rest => artAt d (c :: rest) || hasArt d rest

/-- The block filter of `analisador_ver3.py` / `analisador_ver4.py`:
`not bloco.strip() or not re.search(Art 1) or not re.search(Art 2)` skips the
block, so a block is processed iff it strips to something non-empty and
contains both article markers. -/
def admissivel (b : List Char) : Bool :=
  !(pyStrip b).isEmpty && (hasArt '1' b && hasArt '2' b)

/-- Python's substring test (the `in` operator) at a fixed position: does the
text start with `pat`, compared case-sensitively? -/
def isSubAt : List Char → List Char → Bool
  | [], _ => true
  | _ :: _, [] => false
  | p :: ps, c :: cs => p = c && isSubAt ps cs

/-- Python's `pat in s`: does `pat` occur as a contiguous substring? -/
def containsSub (pat : List Char) : List Char → Bool
  | [] => pat.isEmpty
  | c :: rest => isSubAt pat (c :: rest) || containsSub pat rest

/-- The exact literal `"Art. 1º"` tested by the ver2 filter. -/
def litArt1 : List Char := ['A', 'r', 't', '.', ' ', '1', 'º']

/-- The exact literal `"Art. 2º"` tested by the ver2 filter. -/
def litArt2 : List Char := ['A', 'r', 't', '.', ' ', '2', 'º']

/-- The block filter of `analisador_ver2.py` (lines 126-128):
`not bloco.strip() or "Art. 1º" not in bloco or "Art. 2º" not in bloco`
skips the block — a case-sensitive exact-substring test, unlike the
case-insensitive regex search of ver3/ver4. -/
def admissivelVer2 (b : List Char) : Bool :=
  !(pyStrip b).isEmpty && (containsSub litArt1 b && containsSub litArt2 b)

/-- A funding source as it appears in the `fontes` list of an extracted
decree: each field is `fonte.get(...)`, `none` for a missing key or a JSON
null. -/
structure Fonte where
  nome_da_fonte : Option String
  valor_da_fonte : PyVal
  codigo_fonte : Option String
deriving DecidableEq

/-- An extracted decree record as consumed by the reconciliation loop; again
each field is `dec.get(...)`.  `fontes = none` models a missing `fontes`
key (for which `dec.get('fontes', [])` substitutes the empty list). -/
structure Dec where
  numero_decreto : Option String
  data_decreto : Option String
  valor_total : PyVal
  tipo_credito : Option String
  fontes : Option (List Fonte)
deriving DecidableEq

/-- `dec.get('fontes', [])`. -/
def fontesOf (dec : Dec) : List Fonte :=
  dec.fontes.getD []

/-- A row of quadro 1 (summary: one per decree). -/
structure Q1Row where
  numero : Option String
  data : Option String
  valor : PyVal
  tipo : Option String
  fonte : String
deriving DecidableEq

/-- A row of quadro 2 (per-source detail). -/
structure Q2Row where
  numero : Option String
  data : Option String
  valor : PyVal
  fonte : Option String
deriving DecidableEq

/-- A row of quadro 3 (funding-code focus). -/
structure Q3Row where
  numero : Option String
  data : Option String
  fonte : Option String
  codigo : String
deriving DecidableEq

/-- Python `x or fallback` for an optional string: the fallback replaces a
falsy value, i.e. `None` and the empty string. -/
def pyOr (x : Option String) (fallback : String) : String :=
  match x with
  | some s => if s = "" then fallback else s
  | none => fallback

/-- `[f.get('nome_da_fonte') for f in fontes if f.get('nome_da_fonte')]`:
the source names that are present and truthy (non-empty). -/
def truthyNames (fontes : List Fonte) : List String :=
  (fontes.filterMap Fonte.nome_da_fonte).filter (fun s => decide (s ≠ ""))

/-- Python's `sorted`: code-point lexicographic ascending order. -/
def sortNames (l : List String) : List String :=
  List.insertionSort (· ≤ ·) l

/-- `sorted(list(set(truthy names)))`, parameterized by the enumeration
`setList` that `list(set(...))` produces: any duplicate-free enumeration of
the distinct names.  The canonical reconciliation below instantiates it with
`List.dedup`; the determinism theorem shows the choice is irrelevant. -/
def nomesFontesWith (setList : List String → List String) (fontes : List Fonte) :
    List String :=
  sortNames (setList (truthyNames fontes))

/-- Canonical `sorted(list(set(...)))`. -/
def nomesFontes (fontes : List Fonte) : List String :=
  nomesFontesWith List.dedup fontes

/-- The quadro-1 row appended for one decree. -/
def q1RowWith (setList : List String → List String) (dec : Dec) : Q1Row :=
  { numero := dec.numero_decreto
    data := dec.data_decreto
    valor := formatar dec.valor_total
    tipo := dec.tipo_credito
    fonte := String.intercalate ", " (nomesFontesWith setList (fontesOf dec)) }

/-- Canonical quadro-1 row. -/
def q1RowOf (dec : Dec) : Q1Row :=
  q1RowWith List.dedup dec

/-- The quadro-2 rows appended for one decree: one per funding source, but
only when `len(fontes) > 1`. -/
def q2RowsOf (dec : Dec) : List Q2Row :=
  let fontes := fontesOf dec
  if 1 < fontes.length then
    fontes.map (fun f =>
      { numero := dec.numero_decreto
        data := dec.data_decreto
        valor := formatar f.valor_da_fonte
        fonte := f.nome_da_fonte })
  else []

/-- The quadro-3 rows appended for one decree: one per funding source whose
name is exactly "Excesso de Arrecadação", with
`fonte.get('codigo_fonte') or 'Não encontrado'` in the code column. -/
def q3RowsOf (dec : Dec) : List Q3Row :=
  ((fontesOf dec).filter
      (fun f => decide (f.nome_da_fonte = some "Excesso de Arrecadação"))).map
    (fun f =>
      { numero := dec.numero_decreto
        data := dec.data_decreto
        fonte := f.nome_da_fonte
        codigo := pyOr f.codigo_fonte "Não encontrado" })

/-- The reconciliation loop of `analisador_ver3.py` / `analisador_ver4.py`:
fold the extracted decrees, in order, into the three quadros; parameterized
by the `list(set(...))` enumeration. -/
def reconcileWith (setList : List String → List String) (decs : List Dec) :
    List Q1Row × List Q2Row × List Q3Row :=
  (decs.map (q1RowWith setList), (decs.map q2RowsOf).flatten,
    (decs.map q3RowsOf).flatten)

/-- Canonical reconciliation. -/
def reconcile (decs : List Dec) : List Q1Row × List Q2Row × List Q3Row :=
  reconcileWith List.dedup decs

/-- The outcome of the oracle interaction for one submitted block, at the
granularity the driver loop observes:
* `transportFailure` — the API call raised; `enviar_prompt_para_bloco`
  catches the exception, prints a warning and returns `None`;
* `malformed` — a reply text that `json.loads` rejects (`JSONDecodeError`);
* `badShape` — valid JSON lacking the required list-valued key
  (`"decretos"` in ver3, a non-empty `"quadro1"` in ver4);
* `success ds` — valid JSON carrying the list `ds` of decree records
  (possibly empty in ver3). -/
inductive FragOutcome where
  | transportFailure
  | malformed
  | badShape
  | success (ds : List Dec)
deriving DecidableEq

/-- Observable trace of one ver3 run: the blocks actually submitted to the
oracle, the 1-based ordinals reported with a warning, and the accumulated
`lista_final_decretos`. -/
structure RunLog where
  sent : List (List Char)
  reported : List Nat
  decs : List Dec
deriving DecidableEq

/-- The main loop of `analisador_ver3.py` from block `i` on: skip blocks that
fail the admissibility filter; otherwise submit, and branch on the outcome —
`None` falls through the `if resposta_json_str:` guard, `JSONDecodeError` and
a missing `decretos` key are caught/reported, a `decretos` list (even empty)
is appended.  No failure stops the loop. -/
def runVer3Go (outcome : Nat → FragOutcome) : Nat → List (List Char) → RunLog
  | _, [] => ⟨[], [], []⟩
  | i, b :: rest =>
    let r := runVer3Go outcome (i + 1) rest
    if admissivel b then
      match outcome i with
      | .transportFailure => ⟨b :: r.sent, (i + 1) :: r.reported, r.decs⟩
      | .malformed => ⟨b :: r.sent, (i + 1) :: r.reported, r.decs⟩
      | .badShape => ⟨b :: r.sent, (i + 1) :: r.reported, r.decs⟩
      | .success ds => ⟨b :: r.sent, r.reported, ds ++ r.decs⟩
    else r

/-- One ver3 run over the segmented blocks. -/
def runVer3 (outcome : Nat → FragOutcome) (blocks : List (List Char)) : RunLog :=
  runVer3Go outcome 0 blocks

/-- Result of a ver4 run: either completed with the accumulated decree list,
or halted at the given 1-based block ordinal by an uncaught exception. -/
inductive Ver4Result where
  | halted (atBlock : Nat) (decsSoFar : List Dec)
  | completed (decs : List Dec)
deriving DecidableEq

/-- The main loop of `analisador_ver4.py` from block `i` on, with `acc` the
decrees accumulated so far.  Unlike ver3 there is no `if resposta_json_str:`
guard: after a transport failure the adapter's `None` reaches
`json.loads(None)`, which raises `TypeError` — not the caught
`json.JSONDecodeError` — so the run halts.  A valid reply needs a non-empty
`quadro1` list to be appended. -/
def runVer4Go (outcome : Nat → FragOutcome) :
    Nat → List Dec → List (List Char) → Ver4Result
  | _, acc, [] => .completed acc
  | i, acc, b :: rest =>
    if admissivel b then
      match outcome i with
      | .transportFailure => .halted (i + 1) acc
      | .malformed => runVer4Go outcome (i + 1) acc rest
      | .badShape => runVer4Go outcome (i + 1) acc rest
      | .success ds =>
          if ds.isEmpty then runVer4Go outcome (i + 1) acc rest
          else runVer4Go outcome (i + 1) (acc ++ ds) rest
    else runVer4Go outcome (i + 1) acc rest

/-- One ver4 run over the segmented blocks. -/
def runVer4 (outcome : Nat → FragOutcome) (blocks : List (List Char)) : Ver4Result :=
  runVer4Go outcome 0 [] blocks

/-- A concrete admissible decree block (fragment 1 of the C3 scenario). -/
def blockA : List Char :=
  "DECRETO Nº 10/2023\nArt. 1º Fica aberto um credito.\nArt. 2º Anulação de Dotações.".toList

/-- A concrete admissible decree block (fragment 2 of the C3 scenario). -/
def blockB : List Char :=
  "DECRETO Nº 11/2023\nArt. 1º Fica aberto outro credito.\nArt. 2º Excesso de Arrecadação.".toList

/-- A concrete admissible decree block (fragment 3 of the C3 scenario). -/
def blockC : List Char :=
  "DECRETO Orçamentário Nº 12/2023\nArt. 1º Credito especial.\nArt. 2º Superávit Financeiro.".toList

/-- The decree record the oracle extracts from `blockA`. -/
def decA : Dec :=
  ⟨some "10/2023", some "02 de Maio de 2023", .vnum "1000.0",
    some "Créditos Suplementares",
    some [⟨some "Anulação de Dotações", .vnum "1000.0", none⟩]⟩

/-- The decree record the oracle extracts from `blockC`. -/
def decC : Dec :=
  ⟨some "12/2023", some "20 de Maio de 2023", .vnum "2000.0",
    some "Créditos Especiais",
    some [⟨some "Superávit Financeiro", .vnum "2000.0", none⟩]⟩

/-- Oracle outcomes of the C3 scenario: fragments 1 and 3 succeed, the API
call for fragment 2 raises, so the adapter catches and returns `None`. -/
def outcomeC3 : Nat → FragOutcome := fun i =>
  if i = 0 then .success [decA]
  else if i = 1 then .transportFailure
  else .success [decC]

/-- Sample decree for the C5 witness: three funding sources, two of them
"Excesso de Arrecadação" (one with a code, one without). -/
def decC5 : Dec :=
  ⟨some "11/2023", some "10 de Junho de 2023", .vnum "500000.0",
    some "Créditos Especiais",
    some [⟨some "Excesso de Arrecadação", .vnum "300000.0", some "1234567890"⟩,
          ⟨some "Excesso de Arrecadação", .vnum "100000.0", none⟩,
          ⟨some "Anulação de Dotações", .vnum "100000.0", none⟩]⟩

/-- Sample decree for the C6 and C8 witnesses: a duplicated source name and
names out of lexicographic order. -/
def decC6 : Dec :=
  ⟨some "12/2023", some "01 de Dezembro de 2023", .vnum "7176857.26",
    some "Créditos Suplementares",
    some [⟨some "Superávit Financeiro", .vnum "2234543.03", none⟩,
          ⟨some "Anulação de Dotações", .vnum "2000000.0", none⟩,
          ⟨some "Anulação de Dotações", .vnum "2942314.23", none⟩]⟩

/-- Sample decree for the C10 witness: no `fontes` key at all. -/
def decC10 : Dec :=
  ⟨some "01/2023", some "05 de Janeiro de 2023", .vnum "1000.0",
    some "Créditos Suplementares", none⟩

/-- An alternative `list(set(...))` enumeration (reversed), for the C8
witness. -/
def setListRev : List String → List String := fun l => l.dedup.reverse

/-- The corpus of the C7 witness: starts at a newline followed by a decree
marker, so the split produces a genuinely empty leading fragment. -/
def corpusC7 : List Char :=
  "\nDECRETO Nº 7/2023\nArt. 1º abre.\nArt. 2º fontes.".toList

/-- An all-caps fragment for the C4 counterexample: its article headings
match the ver3/ver4 regexes case-insensitively but miss the exact literals
of the ver2 filter. -/
def blockUpper : List Char :=
  "DECRETO Nº 5/2023\nART. 1º Fica aberto.\nART. 2º Excesso de Arrecadação.".toList

/-- C1: quadro 2 rows are emitted for a decree exactly when it has more than
one funding source — zero rows for at most one source, exactly one row per
source otherwise. -/
theorem c1_table2_fanout (dec : Dec) :
    (q2RowsOf dec).length =
      (if 1 < (fontesOf dec).length then (fontesOf dec).length else 0) ∧
    (q2RowsOf dec = [] ↔ (fontesOf dec).length ≤ 1) := by
  unfold q2RowsOf
  by_cases h : 1 < (fontesOf dec).length
  · refine ⟨by simp [h], ?_⟩
    simp only [if_pos h, List.map_eq_nil_iff]
    constructor
    · intro he
      rw [he] at h
      simp at h
    · intro hle
      exact absurd h (not_lt.mpr hle)
  · refine ⟨by simp [h], ?_⟩
    simp only [if_neg h]
    constructor
    · intro _
      omega
    · intro _
      trivial

/-- C2 (counterexample): the float input `1884373.3` does not map to
"1.884.373,30" — its stringified decimal point is stripped by the
digits-and-comma filter, so the formatter yields "18.843.733,00". -/
theorem c2_float_counterexample :
    formatar (PyVal.vnum "1884373.3") = PyVal.vstr "18.843.733,00" ∧
    PyVal.vstr "18.843.733,00" ≠ PyVal.vstr "1.884.373,30" := by
  refine ⟨by decide, by decide⟩

/-- C2 (amended): the formatter strips every character except digits and
comma, treats comma as the decimal point, rounds to 2 fractional digits and
renders thousands-dot/decimal-comma; "2.041.680,00" round-trips, the float
1884373.3 maps to "18.843.733,00" (the dot of its `str()` image is stripped,
merging the fractional digit into the integer part), and "garbage" is
returned unchanged. -/
theorem c2_formatter_examples :
    formatar (PyVal.vstr "2.041.680,00") = PyVal.vstr "2.041.680,00" ∧
    formatar (PyVal.vnum "1884373.3") = PyVal.vstr "18.843.733,00" ∧
    formatar (PyVal.vstr "garbage") = PyVal.vstr "garbage" := by
  refine ⟨by decide, by decide, by decide⟩

/-- C9: the monetary formatter is total over its reachable inputs (strings,
numbers, `None`): every exception its body can raise is named in its
`except` clause, so it always returns a value — the formatted string or the
original input — and `None` in particular is returned unchanged. -/
theorem c9_formatter_total :
    (∀ v, formatarChecked v = some (formatar v)) ∧
    formatar PyVal.vnone = PyVal.vnone := by
  refine ⟨fun v => ?_, by decide⟩
  unfold formatarChecked formatarBody formatar caughtByFormatar
  cases h : parseDec (cleanBRL (pyStrOf v)) with
  | none => simp
  | some p =>
    cases p
    simp

/-- C10: a record whose `fontes` key is missing or holds the empty list is
still reconciled: one quadro-1 row with an empty source column, and no
quadro-2 or quadro-3 rows. -/
theorem c10_empty_fontes (dec : Dec) (h : dec.fontes = none ∨ dec.fontes = some []) :
    reconcile [dec] =
      ([⟨dec.numero_decreto, dec.data_decreto, formatar dec.valor_total,
         dec.tipo_credito, ""⟩], [], []) := by
  have hf : fontesOf dec = [] := by
    rcases h with h | h <;> simp [fontesOf, h]
  simp [reconcile, reconcileWith, q1RowWith, q2RowsOf, q3RowsOf, hf,
    nomesFontesWith, truthyNames, sortNames]
  rfl

/-- C10 witness: the theorem applied to `decC10`, which lacks the `fontes`
key. -/
theorem c10_empty_fontes_witness :
    (decC10.fontes = none ∨ decC10.fontes = some []) ∧
    reconcile [decC10] =
      ([⟨decC10.numero_decreto, decC10.data_decreto, formatar decC10.valor_total,
         decC10.tipo_credito, ""⟩], [], []) :=
  ⟨Or.inl rfl, c10_empty_fontes decC10 (Or.inl rfl)⟩

/-- Helper: `pyStrip` erases the whole string exactly when every character is
whitespace. -/
theorem pyStrip_eq_nil_iff (l : List Char) :
    pyStrip l = [] ↔ ∀ c ∈ l, isPySpace c = true := by
  unfold pyStrip
  rw [List.reverse_eq_nil_iff, List.dropWhile_eq_nil_iff]
  constructor
  · intro h c hc
    have hsplit : c ∈ l.takeWhile isPySpace ++ l.dropWhile isPySpace := by
      rw [List.takeWhile_append_dropWhile]
      exact hc
    rcases List.mem_append.mp hsplit with hm | hm
    · exact List.mem_takeWhile_imp hm
    · exact h c (List.mem_reverse.mpr hm)
  · intro h c hc
    exact h c ((List.dropWhile_sublist _).subset (List.mem_reverse.mp hc))

/-- Helper: no whitespace character lower-cases to `a`. -/
theorem isPySpace_lower_ne (c : Char) (h : isPySpace c = true) : lowerPy c ≠ 'a' := by
  unfold isPySpace at h
  simp only [Bool.or_eq_true, decide_eq_true_eq] at h
  rcases h with ((((((h | h) | h) | h) | h) | h) | h) | h <;> subst h <;> decide

/-- Helper: an article-marker match starts with a letter `a`. -/
theorem artAt_head (d : Char) (cs : List Char) (h : artAt d cs = true) :
    ∃ c cs', cs = c :: cs' ∧ lowerPy c = 'a' := by
  unfold artAt at h
  cases cs with
  | nil => simp [matchCI] at h
  | cons c cs' =>
    refine ⟨c, cs', rfl, ?_⟩
    by_contra hne
    rw [show matchCI ['a', 'r', 't', '.'] (c :: cs') = none from by
      simp [matchCI, hne]] at h
    simp at h

/-- Helper: a block matching an article marker contains a non-whitespace
character. -/
theorem hasArt_mem_nonspace (d : Char) (l : List Char) (h : hasArt d l = true) :
    ∃ c ∈ l, isPySpace c = false := by
  induction l with
  | nil => simp [hasArt] at h
  | cons c rest ih =>
    rw [hasArt, Bool.or_eq_true] at h
    rcases h with h | h
    · obtain ⟨c0, cs0, heq, hlow⟩ := artAt_head d _ h
      injection heq with h1 h2
      refine ⟨c, List.mem_cons_self c rest, ?_⟩
      cases hsp : isPySpace c with
      | false => rfl
      | true =>
        rw [h1] at hsp
        exact absurd hlow (isPySpace_lower_ne c0 hsp)
    · obtain ⟨c', hm, hns⟩ := ih h
      exact ⟨c', List.mem_cons_of_mem _ hm, hns⟩

/-- Helper: a substring match starts with the pattern's first character. -/
theorem isSubAt_head_eq (p : Char) (ps cs : List Char) (c : Char)
    (h : isSubAt (p :: ps) (c :: cs) = true) : p = c := by
  rw [isSubAt, Bool.and_eq_true] at h
  exact of_decide_eq_true h.1

/-- Helper: a string containing a non-empty substring contains its first
character. -/
theorem containsSub_head_mem (p : Char) (ps l : List Char)
    (h : containsSub (p :: ps) l = true) : p ∈ l := by
  induction l with
  | nil => simp [containsSub] at h
  | cons c rest ih =>
    rw [containsSub, Bool.or_eq_true] at h
    rcases h with h | h
    · rw [isSubAt_head_eq p ps rest c h]
      exact List.mem_cons_self c rest
    · exact List.mem_cons_of_mem _ (ih h)

/-- C4 (amended): a fragment is submitted to the extraction oracle exactly
when it
passes the admissibility filter, and that filter is equivalent to requiring,
case-insensitively, both an Article 1 and an Article 2 marker (the extra
`bloco.strip()` test of the source is subsumed: a block matching a marker is
never all-whitespace); in the ver2 variant the filter is instead equivalent
to containing the exact case-sensitive literals "Art. 1º" and "Art. 2º"
(its strip test subsumed likewise). -/
theorem c4_admissibility_filter (outcome : Nat → FragOutcome)
    (blocks : List (List Char)) (b : List Char) :
    (runVer3 outcome blocks).sent = blocks.filter admissivel ∧
    admissivel b = (hasArt '1' b && hasArt '2' b) ∧
    admissivelVer2 b = (containsSub litArt1 b && containsSub litArt2 b) := by
  refine ⟨?_, ?_, ?_⟩
  · show (runVer3Go outcome 0 blocks).sent = _
    suffices hgen : ∀ i bs, (runVer3Go outcome i bs).sent = bs.filter admissivel from
      hgen 0 blocks
    intro i bs
    induction bs generalizing i with
    | nil => rfl
    | cons hd tl ih =>
      simp only [runVer3Go]
      by_cases ha : admissivel hd
      · cases houtcome : outcome i <;> simp [ha, List.filter_cons, ih]
      · simp [ha, List.filter_cons, ih]
  · unfold admissivel
    cases h1 : hasArt '1' b with
    | false => simp
    | true =>
      obtain ⟨c, hm, hns⟩ := hasArt_mem_nonspace '1' b h1
      have hstrip : pyStrip b ≠ [] := by
        intro hnil
        have hsp := (pyStrip_eq_nil_iff b).mp hnil c hm
        rw [hsp] at hns
        exact Bool.noConfusion hns
      have hemp : (pyStrip b).isEmpty = false := by
        simpa using hstrip
      rw [hemp]
      simp
  · unfold admissivelVer2
    cases h1 : containsSub litArt1 b with
    | false => simp
    | true =>
      have h1' : containsSub ('A' :: ['r', 't', '.', ' ', '1', 'º']) b = true := h1
      have hA : 'A' ∈ b := containsSub_head_mem 'A' _ b h1'
      have hstrip : pyStrip b ≠ [] := by
        intro hnil
        have hsp := (pyStrip_eq_nil_iff b).mp hnil 'A' hA
        exact absurd hsp (by decide)
      have hemp : (pyStrip b).isEmpty = false := by
        simpa using hstrip
      rw [hemp]
      simp

/-- C4 (counterexample): a fragment carrying both article markers
case-insensitively — which the claim says is always admitted — is silently
discarded by the ver2 filter, whose exact-literal test is case-sensitive;
the ver3/ver4 filter does admit the same fragment. -/
theorem c4_ver2_case_counterexample :
    hasArt '1' blockUpper = true ∧ hasArt '2' blockUpper = true ∧
    admissivelVer2 blockUpper = false ∧ admissivel blockUpper = true := by
  refine ⟨by decide, by decide, by decide, by decide⟩

/-- Helper: `re.split` always yields at least one fragment. -/
theorem pySplitAux_ne_nil (cs acc : List Char) : pySplitAux cs acc ≠ [] := by
  induction cs generalizing acc with
  | nil => simp [pySplitAux]
  | cons c rest ih =>
    rw [pySplitAux]
    by_cases h : c = '\n' && splitMarker rest
    · simp [h]
    · simpa [h] using ih (c :: acc)

/-- Helper: unfolding `joinNL` on a cons with a non-empty tail. -/
theorem joinNL_cons (a : List Char) (l : List (List Char)) (h : l ≠ []) :
    joinNL (a :: l) = a ++ '\n' :: joinNL l := by
  cases l with
  | nil => exact absurd rfl h
  | cons b t => rfl

/-- Helper: re-inserting the consumed newlines undoes the split. -/
theorem joinNL_pySplitAux (cs acc : List Char) :
    joinNL (pySplitAux cs acc) = acc.reverse ++ cs := by
  induction cs generalizing acc with
  | nil => simp [pySplitAux, joinNL]
  | cons c rest ih =>
    rw [pySplitAux]
    by_cases h : c = '\n' && splitMarker rest
    · rw [if_pos h, joinNL_cons _ _ (pySplitAux_ne_nil _ _), ih]
      have hc : c = '\n' := by
        have := (Bool.and_eq_true _ _).mp h
        simpa using this.1
      subst hc
      simp
    · rw [if_neg h, ih]
      simp

/-- C7 (amended): concatenating the split fragments with the consumed `\n`
boundary reconstructs the corpus; the segmenter's output is the split list
with its leading fragment removed exactly when that fragment strips to
nothing (in particular when it is empty), hence a sublist of the split in
original document order. -/
theorem c7_segment_reconstruction (t : List Char) :
    joinNL (pySplit t) = t ∧
    (segmentVer3 t).Sublist (pySplit t) ∧
    ((pyStrip ((pySplit t).headI)).isEmpty = true → segmentVer3 t = (pySplit t).tail) ∧
    ((pyStrip ((pySplit t).headI)).isEmpty = false → segmentVer3 t = pySplit t) := by
  have hrec : joinNL (pySplit t) = t := by
    simpa using joinNL_pySplitAux t []
  cases hsplit : pySplit t with
  | nil => exact absurd hsplit (pySplitAux_ne_nil t [])
  | cons b rest =>
    have hseg : segmentVer3 t = if (pyStrip b).isEmpty then rest else b :: rest := by
      unfold segmentVer3
      rw [show pySplit t = b :: rest from hsplit]
    rw [hsplit] at hrec
    refine ⟨hrec, ?_, ?_, ?_⟩
    · by_cases hb : (pyStrip b).isEmpty
      · rw [hseg, if_pos hb]
        exact List.sublist_cons_self b rest
      · rw [hseg, if_neg hb]
    · intro hb
      rw [hseg]
      simp only [List.headI] at hb
      simp [hb]
    · intro hb
      rw [hseg]
      simp only [List.headI] at hb
      simp [hb]

/-- C7 (counterexample): when the corpus begins with a whitespace-only (but
non-empty) fragment before the first marker, the segmenter still drops it, so
neither plain reconstruction nor reconstruction after restoring a dropped
empty fragment recovers the original text. -/
theorem c7_whitespace_head_counterexample :
    segmentVer3 " \nDECRETO Nº 1".toList = ["DECRETO Nº 1".toList] ∧
    joinNL (segmentVer3 " \nDECRETO Nº 1".toList) ≠ " \nDECRETO Nº 1".toList ∧
    joinNL ([] :: segmentVer3 " \nDECRETO Nº 1".toList) ≠ " \nDECRETO Nº 1".toList := by
  refine ⟨by decide, by decide, by decide⟩

/-- C7 witness: a corpus whose leading fragment is empty. -/
theorem c7_segment_reconstruction_witness :
    joinNL (pySplit corpusC7) = corpusC7 ∧
    segmentVer3 corpusC7 = (pySplit corpusC7).tail :=
  ⟨(c7_segment_reconstruction corpusC7).1,
    (c7_segment_reconstruction corpusC7).2.2.1 (by decide)⟩

/-- C3: on the three-admissible-fragment scenario whose second oracle call
raises, ver4 feeds the adapter's `None` into `json.loads`, whose uncaught
`TypeError` halts the run at fragment 2 with fragment 3 unprocessed — while
the ver3 loop isolates the failure, reports it, and still extracts fragments
1 and 3. -/
theorem c3_transport_crash_ver4 :
    runVer4 outcomeC3 [blockA, blockB, blockC] = Ver4Result.halted 2 [decA] ∧
    runVer3 outcomeC3 [blockA, blockB, blockC] =
      ⟨[blockA, blockB, blockC], [2], [decA, decC]⟩ := by
  refine ⟨by decide, by decide⟩

/-- C5: quadro 3 receives exactly one row per funding source named
"Excesso de Arrecadação" (whatever the decree's total number of sources),
and — on records whose codes are never the empty string, as the data model
prescribes (codes are 10-digit strings when present) — the code column is the
extracted code when present and the literal "Não encontrado" when the field
is null or absent; the column is never empty. -/
theorem c5_table3_rows (dec : Dec)
    (h : ∀ f ∈ fontesOf dec, f.codigo_fonte ≠ some "") :
    q3RowsOf dec =
      ((fontesOf dec).filter
          (fun f => decide (f.nome_da_fonte = some "Excesso de Arrecadação"))).map
        (fun f =>
          ⟨dec.numero_decreto, dec.data_decreto, f.nome_da_fonte,
            f.codigo_fonte.getD "Não encontrado"⟩) ∧
    ∀ r ∈ q3RowsOf dec, r.fonte = some "Excesso de Arrecadação" ∧ r.codigo ≠ "" := by
  constructor
  · unfold q3RowsOf
    refine List.map_congr_left ?_
    intro f hf
    have hmem : f ∈ fontesOf dec := List.mem_of_mem_filter hf
    have hcod := h f hmem
    cases hc : f.codigo_fonte with
    | none => rfl
    | some s =>
      have hs : s ≠ "" := by
        intro he
        rw [he] at hc
        exact hcod hc
      simp [pyOr, hc, hs]
  · intro r hr
    unfold q3RowsOf at hr
    obtain ⟨f, hf, rfl⟩ := List.mem_map.mp hr
    have hname : f.nome_da_fonte = some "Excesso de Arrecadação" := by
      have := (List.mem_filter.mp hf).2
      simpa using this
    refine ⟨hname, ?_⟩
    cases hc : f.codigo_fonte with
    | none => simp [pyOr]
    | some s =>
      by_cases hs : s = "" <;> simp [pyOr, hs]

/-- C5 witness: the theorem applied to the sample decree `decC5`. -/
theorem c5_table3_rows_witness :
    (∀ f ∈ fontesOf decC5, f.codigo_fonte ≠ some "") ∧
    (q3RowsOf decC5 =
      ((fontesOf decC5).filter
          (fun f => decide (f.nome_da_fonte = some "Excesso de Arrecadação"))).map
        (fun f =>
          ⟨decC5.numero_decreto, decC5.data_decreto, f.nome_da_fonte,
            f.codigo_fonte.getD "Não encontrado"⟩) ∧
    ∀ r ∈ q3RowsOf decC5, r.fonte = some "Excesso de Arrecadação" ∧ r.codigo ≠ "") :=
  ⟨by decide, c5_table3_rows decC5 (by decide)⟩

/-- C6: reconciliation emits exactly one quadro-1 row per extracted record;
its source column joins, with ", ", a list of source names that is strictly
sorted (hence duplicate-free), and — on records whose sources all carry a
present, non-empty name, as the data model prescribes — that list holds
exactly the names occurring among the record's funding sources. -/
theorem c6_table1_sources (dec : Dec)
    (h : ∀ f ∈ fontesOf dec, f.nome_da_fonte ≠ none ∧ f.nome_da_fonte ≠ some "") :
    (∀ decs : List Dec, ((reconcile decs).1).length = decs.length) ∧
    (reconcile [dec]).1 = [q1RowOf dec] ∧
    (q1RowOf dec).fonte = String.intercalate ", " (nomesFontes (fontesOf dec)) ∧
    List.Sorted (· < ·) (nomesFontes (fontesOf dec)) ∧
    (∀ s : String, s ∈ nomesFontes (fontesOf dec) ↔
      ∃ f ∈ fontesOf dec, f.nome_da_fonte = some s) := by
  refine ⟨?_, rfl, rfl, ?_, ?_⟩
  · intro decs
    simp [reconcile, reconcileWith]
  · have hsorted : List.Sorted (· ≤ ·) (nomesFontes (fontesOf dec)) :=
      List.sorted_insertionSort _ _
    have hnodup : (nomesFontes (fontesOf dec)).Nodup :=
      ((List.perm_insertionSort _ _).nodup_iff).mpr (List.nodup_dedup _)
    exact (List.Pairwise.and hsorted hnodup).imp
      (fun hab => lt_of_le_of_ne hab.1 hab.2)
  · intro s
    unfold nomesFontes nomesFontesWith sortNames
    rw [(List.perm_insertionSort _ _).mem_iff, List.mem_dedup]
    unfold truthyNames
    rw [List.mem_filter, List.mem_filterMap]
    constructor
    · rintro ⟨⟨f, hf, hnome⟩, _⟩
      exact ⟨f, hf, hnome⟩
    · rintro ⟨f, hf, hnome⟩
      refine ⟨⟨f, hf, hnome⟩, ?_⟩
      have hne := (h f hf).2
      rw [hnome] at hne
      simpa using fun he => hne (by rw [he])

/-- C6 witness: the theorem applied to the sample decree `decC6`. -/
theorem c6_table1_sources_witness :
    (∀ f ∈ fontesOf decC6, f.nome_da_fonte ≠ none ∧ f.nome_da_fonte ≠ some "") ∧
    ((∀ decs : List Dec, ((reconcile decs).1).length = decs.length) ∧
    (reconcile [decC6]).1 = [q1RowOf decC6] ∧
    (q1RowOf decC6).fonte = String.intercalate ", " (nomesFontes (fontesOf decC6)) ∧
    List.Sorted (· < ·) (nomesFontes (fontesOf decC6)) ∧
    (∀ s : String, s ∈ nomesFontes (fontesOf decC6) ↔
      ∃ f ∈ fontesOf decC6, f.nome_da_fonte = some s)) :=
  ⟨by decide, c6_table1_sources decC6 (by decide)⟩

/-- C8: reconciliation is deterministic (hence idempotent): the three tables
do not depend on the enumeration order `list(set(...))` happens to produce —
the only internally non-canonical step — so two runs over the same extracted
records yield identical tables. -/
theorem c8_reconcile_deterministic (s₁ s₂ : List String → List String)
    (h₁ : ∀ l, List.Perm (s₁ l) l.dedup) (h₂ : ∀ l, List.Perm (s₂ l) l.dedup)
    (decs : List Dec) :
    reconcileWith s₁ decs = reconcileWith s₂ decs := by
  have hq1 : ∀ dec, q1RowWith s₁ dec = q1RowWith s₂ dec := by
    intro dec
    unfold q1RowWith
    have hnames : nomesFontesWith s₁ (fontesOf dec) = nomesFontesWith s₂ (fontesOf dec) := by
      unfold nomesFontesWith sortNames
      have hperm : List.Perm (s₁ (truthyNames (fontesOf dec)))
          (s₂ (truthyNames (fontesOf dec))) :=
        (h₁ _).trans (h₂ _).symm
      exact List.eq_of_perm_of_sorted
        ((List.perm_insertionSort _ _).trans
          (hperm.trans (List.perm_insertionSort _ _).symm))
        (List.sorted_insertionSort _ _) (List.sorted_insertionSort _ _)
    rw [hnames]
  unfold reconcileWith
  rw [List.map_congr_left (fun dec _ => hq1 dec)]

/-- C8 witness: the canonical enumeration against the reversed one, on a
record with duplicated, unsorted source names. -/
theorem c8_reconcile_deterministic_witness :
    (∀ l : List String, List.Perm (List.dedup l) l.dedup) ∧
    (∀ l : List String, List.Perm (setListRev l) l.dedup) ∧
    reconcileWith List.dedup [decC6] = reconcileWith setListRev [decC6] :=
  ⟨fun _ => List.Perm.refl _, fun _ => List.reverse_perm _,
    c8_reconcile_deterministic List.dedup setListRev (fun _ => List.Perm.refl _)
      (fun _ => List.reverse_perm _) [decC6]⟩
